import Mathlib

/-!
Verification of the pet mood detection pipeline (`mood_detection.py`).

The program is a linear pipeline: an object detector produces a list of
labelled bounding boxes; `detect_and_crop` scans them for the first one
labelled "dog" or "cat" and crops the image to its box; `classify_mood`
scores four fixed mood phrases with a similarity model, softmax-normalizes
the scores and returns the argmax mood with its probability;
`get_recommendation` looks the (pet, mood) pair up in a static table; the
main script prints the results and renders an annotated image, or prints
"No pet detected in the image." when nothing matched.

The two pretrained models are external collaborators: the detector's output
is modelled as an explicit list of detections, and the similarity model's
softmax distribution as an explicit probability list (rationals, so the
pipeline stays executable).  The softmax normalization itself, which the
source applies locally to the model's logits, is embedded over the reals.
-/

/-- One detector output: class label, confidence score and the
`(x1, y1, x2, y2)` bounding box (integer pixel coordinates, as produced by
`map(int, box)` in the source). -/
structure Detection where
  label : String
  conf : ℚ
  box : Int × Int × Int × Int
deriving DecidableEq

/-- A (possibly cropped) image: the source path it was opened from, plus the
crop region applied to it, if any.  `Image.open(image_path)` yields
`⟨image_path, none⟩`; `.crop box` records the region. -/
structure Img where
  source : String
  cropRegion : Option (Int × Int × Int × Int)
deriving DecidableEq, Inhabited

/-- `Image.open(image_path).crop((x1, y1, x2, y2))` from the source. -/
def imageCrop (image_path : String) (b : Int × Int × Int × Int) : Img :=
  ⟨image_path, some b⟩

/-- The membership test `label in ["dog", "cat"]` from `detect_and_crop`. -/
def isPet (label : String) : Bool :=
  label == "dog" || label == "cat"

/-- `detect_and_crop` (source lines 24-35): scan the detections in detector
order; on the first one whose label is "dog" or "cat", return the label, the
crop of the image to its box, and the box; if none matches, return the
sentinel triple `(None, None, None)`.  The detector call itself is external,
so its output is the explicit `dets` argument. -/
def detect_and_crop (image_path : String) :
    List Detection → Option String × Option Img × Option (Int × Int × Int × Int)
  | [] => (none, none, none)
  | d :: rest =>
    if isPet d.label then
      (some d.label, some (imageCrop image_path d.box), some d.box)
    else
      detect_and_crop image_path rest

/-- The fixed mood list `moods = ["happy", "tired", "playful", "anxious"]`. -/
def moods : List String := ["happy", "tired", "playful", "anxious"]

/-- The candidate phrases `[f"a {m} pet" for m in moods]` built inside
`classify_mood`. -/
def candidate_texts : List String := moods.map (fun m => "a " ++ m ++ " pet")

/-- `isMaxOf l x` holds when `x` is an upper bound of the list `l`. -/
def isMaxOf {α : Type} [LinearOrder α] (l : List α) (x : α) : Bool :=
  l.all (fun y => decide (y ≤ x))

/-- `probs.argmax()` from numpy: the index of the first occurrence of the
maximum value of the list (numpy documents first-occurrence semantics for
ties).  Returns `l.length` on the empty list. -/
def npArgmax {α : Type} [LinearOrder α] (l : List α) : Nat :=
  l.findIdx (fun x => isMaxOf l x)

/-- The selection step of `classify_mood` (source lines 54-55): given the
probability distribution over the four phrases, take `best_idx =
probs.argmax()` and return `(moods[best_idx], probs[best_idx])`. -/
def classify_mood_from_probs {α : Type} [LinearOrder α] [Zero α]
    (probs : List α) : String × α :=
  let best_idx := npArgmax probs
  (moods.getD best_idx "", probs.getD best_idx 0)

/-- `logits_per_image.softmax(dim=1)` (source line 52), in exact real
arithmetic: each entry `x` maps to `exp x / Σ exp`. -/
noncomputable def softmax (logits : List ℝ) : List ℝ :=
  logits.map (fun x => Real.exp x / (logits.map Real.exp).sum)

/-- `classify_mood` (source lines 40-55) as a function of the similarity
model's logits over the four candidate phrases: softmax-normalize, then
return the argmax mood and its probability. -/
noncomputable def classify_mood (logits : List ℝ) : String × ℝ :=
  classify_mood_from_probs (softmax logits)

/-- The static `rules` dictionary of `get_recommendation`, as an association
list keyed by `(pet_type, mood)`. -/
def rules : List ((String × String) × String) := [
  (("dog", "happy"), "Take your dog for a walk or play fetch 🎾"),
  (("dog", "tired"), "Let your dog rest and provide fresh water 💧"),
  (("dog", "playful"), "Engage with toys to burn energy 🐕"),
  (("dog", "anxious"), "Check if something is stressing your dog 😟"),
  (("cat", "happy"), "Give your cat some toys or treats 🐱✨"),
  (("cat", "tired"), "Let your cat nap in a quiet spot 💤"),
  (("cat", "playful"), "Play with a laser pointer or string toy 🎯"),
  (("cat", "anxious"), "Make sure the environment is calm 🐱😟")]

/-- `get_recommendation` (source lines 60-71):
`rules.get((pet_type, mood), "Keep monitoring your pet.")`. -/
def get_recommendation (pet_type : String) (mood : String) : String :=
  (rules.lookup (pet_type, mood)).getD "Keep monitoring your pet."

/-- Python truthiness of the `pet_type` value tested by `if pet_type:` in the
main script: `None` and the empty string are falsy, every other string is
truthy. -/
def pyTruthy : Option String → Bool
  | none => false
  | some s => !s.isEmpty

/-- One observable output line of the main script.  The found-case `print`
lines are recorded structurally (pet type, mood with its confidence,
recommendation text); the not-found message is recorded verbatim. -/
inductive PrintEvent where
  | petDetected (pet_type : String)
  | moodLine (mood : String) (confidence : ℚ)
  | recLine (advice : String)
  | message (text : String)
deriving DecidableEq

/-- The observable effects of one run of the main script: the printed
output, how many mood-classification calls were made, and how many
rendering (draw/annotate) calls were made. -/
structure RunTrace where
  events : List PrintEvent
  classifyCalls : Nat
  renderCalls : Nat
deriving DecidableEq

/-- The main script, Step 6 (source lines 104-128): run `detect_and_crop`,
test `if pet_type:` (Python truthiness), and either classify the crop, look
up the recommendation, print the three result lines and render the annotated
image, or print "No pet detected in the image." and stop.  `clipProbs` is
the external similarity model: the softmax distribution it induces over the
four candidate phrases for a given crop. -/
def runPipeline (image_path : String) (dets : List Detection)
    (clipProbs : Img → List ℚ) : RunTrace :=
  let r := detect_and_crop image_path dets
  if pyTruthy r.1 then
    let pet_type := r.1.getD ""
    let cropped := r.2.1.getD default
    let mc := classify_mood_from_probs (clipProbs cropped)
    let advice := get_recommendation pet_type mc.1
    { events := [PrintEvent.petDetected pet_type,
                 PrintEvent.moodLine mc.1 mc.2,
                 PrintEvent.recLine advice],
      classifyCalls := 1,
      renderCalls := 1 }
  else
    { events := [PrintEvent.message "No pet detected in the image."],
      classifyCalls := 0,
      renderCalls := 0 }

/-! ### Helper lemmas about the detection scan -/

/-- If the first dog/cat detection (in detector order) is `d`, the scan
returns `d`'s label, crop and box. -/
theorem detect_first_aux (image_path : String) :
    ∀ (dets : List Detection) (d : Detection),
      dets.find? (fun x => isPet x.label) = some d →
      detect_and_crop image_path dets =
        (some d.label, some (imageCrop image_path d.box), some d.box) := by
  intro dets
  induction dets with
  | nil => intro d h; simp [List.find?] at h
  | cons a t ih =>
    intro d h
    by_cases ha : isPet a.label = true
    · simp only [List.find?_cons, ha, cond_true, Option.some.injEq] at h
      subst h
      simp [detect_and_crop, ha]
    · rw [Bool.not_eq_true] at ha
      simp only [List.find?_cons, ha, cond_false] at h
      simp only [detect_and_crop, ha, Bool.false_eq_true, if_false]
      exact ih d h

/-- If no detection is a dog or cat, the scan returns the sentinel triple. -/
theorem detect_none_aux (image_path : String) :
    ∀ dets : List Detection, (∀ d ∈ dets, isPet d.label = false) →
      detect_and_crop image_path dets = (none, none, none) := by
  intro dets
  induction dets with
  | nil => intro _; rfl
  | cons a t ih =>
    intro h
    have ha : isPet a.label = false := h a (by simp)
    simp only [detect_and_crop, ha, Bool.false_eq_true, if_false]
    exact ih (fun d hd => h d (List.mem_cons_of_mem a hd))

/-- If the dog/cat detections of the list are exactly `[d]`, then `d` is the
first match found by the scan. -/
theorem find_of_filter_singleton (d : Detection) :
    ∀ dets : List Detection, dets.filter (fun x => isPet x.label) = [d] →
      dets.find? (fun x => isPet x.label) = some d := by
  intro dets
  induction dets with
  | nil => intro h; simp at h
  | cons a t ih =>
    intro h
    by_cases ha : isPet a.label = true
    · simp only [List.filter_cons, ha, if_true] at h
      rw [List.cons_eq_cons] at h
      simp only [List.find?_cons, ha, cond_true]
      exact congrArg some h.1
    · rw [Bool.not_eq_true] at ha
      simp only [List.filter_cons, ha, Bool.false_eq_true, if_false] at h
      simp only [List.find?_cons, ha, cond_false]
      exact ih h

/-! ### Claims about `detect_and_crop` -/

/-- C1: for every list of detections produced by the detector, if the first
detection (in detector order) whose label is "dog" or "cat" is `d`, then
`detect_and_crop` returns exactly `d`'s label, crop and box — selection is
by position in the detector's order, not by confidence. -/
theorem detect_and_crop_first_match (image_path : String)
    (dets : List Detection) (d : Detection)
    (h : dets.find? (fun x => isPet x.label) = some d) :
    detect_and_crop image_path dets =
      (some d.label, some (imageCrop image_path d.box), some d.box) :=
  detect_first_aux image_path dets d h

/-- Witness for C1 at a concrete input where the first matching detection has
strictly lower confidence than a later match: the low-confidence first "dog"
(box `(1,2,3,4)`, confidence `1/10`) is returned, not the high-confidence
one. -/
theorem detect_and_crop_first_match_witness :
    ([⟨"dog", mkRat 1 10, (1, 2, 3, 4)⟩, ⟨"dog", mkRat 9 10, (5, 6, 7, 8)⟩] :
        List Detection).find? (fun x => isPet x.label) =
      some ⟨"dog", mkRat 1 10, (1, 2, 3, 4)⟩ ∧
    detect_and_crop "pet.jpg"
        [⟨"dog", mkRat 1 10, (1, 2, 3, 4)⟩, ⟨"dog", mkRat 9 10, (5, 6, 7, 8)⟩] =
      (some "dog", some (imageCrop "pet.jpg" (1, 2, 3, 4)), some (1, 2, 3, 4)) :=
  ⟨by decide, detect_and_crop_first_match "pet.jpg"
    [⟨"dog", mkRat 1 10, (1, 2, 3, 4)⟩, ⟨"dog", mkRat 9 10, (5, 6, 7, 8)⟩]
    ⟨"dog", mkRat 1 10, (1, 2, 3, 4)⟩ (by decide)⟩

/-- C3: when the detector returns zero boxes, or no box is labelled "dog" or
"cat", `detect_and_crop` returns the sentinel triple `(None, None, None)`
(it is a total function: no error is raised). -/
theorem detect_and_crop_sentinel (image_path : String)
    (dets : List Detection) (h : ∀ d ∈ dets, isPet d.label = false) :
    detect_and_crop image_path dets = (none, none, none) :=
  detect_none_aux image_path dets h

/-- Witness for C3: a run with only a "car" detection (and the zero-box case
is covered by the same theorem at `[]`). -/
theorem detect_and_crop_sentinel_witness :
    (∀ d ∈ ([⟨"car", mkRat 9 10, (0, 0, 5, 5)⟩] : List Detection),
        isPet d.label = false) ∧
    detect_and_crop "pet.jpg" [⟨"car", mkRat 9 10, (0, 0, 5, 5)⟩] =
      (none, none, none) :=
  ⟨by decide, detect_and_crop_sentinel "pet.jpg"
    [⟨"car", mkRat 9 10, (0, 0, 5, 5)⟩] (by decide)⟩

/-- C4: for any detection list with exactly one dog or cat detection `d`, the
label returned by `detect_and_crop` is the detector's label for `d` and the
returned box is the detector's reported coordinates for `d`. -/
theorem detect_and_crop_single_detection (image_path : String)
    (dets : List Detection) (d : Detection)
    (h : dets.filter (fun x => isPet x.label) = [d]) :
    (detect_and_crop image_path dets).1 = some d.label ∧
    (detect_and_crop image_path dets).2.2 = some d.box := by
  have hf := find_of_filter_singleton d dets h
  rw [detect_first_aux image_path dets d hf]
  exact ⟨rfl, rfl⟩

/-- Witness for C4: one "cat" detection following a non-pet detection. -/
theorem detect_and_crop_single_detection_witness :
    ([⟨"car", mkRat 8 10, (0, 0, 2, 2)⟩, ⟨"cat", mkRat 7 10, (3, 4, 5, 6)⟩] :
        List Detection).filter (fun x => isPet x.label) =
      [⟨"cat", mkRat 7 10, (3, 4, 5, 6)⟩] ∧
    (detect_and_crop "pet.jpg"
        [⟨"car", mkRat 8 10, (0, 0, 2, 2)⟩, ⟨"cat", mkRat 7 10, (3, 4, 5, 6)⟩]).1 =
      some "cat" ∧
    (detect_and_crop "pet.jpg"
        [⟨"car", mkRat 8 10, (0, 0, 2, 2)⟩, ⟨"cat", mkRat 7 10, (3, 4, 5, 6)⟩]).2.2 =
      some ((3 : Int), (4 : Int), (5 : Int), (6 : Int)) :=
  ⟨by decide, detect_and_crop_single_detection "pet.jpg"
    [⟨"car", mkRat 8 10, (0, 0, 2, 2)⟩, ⟨"cat", mkRat 7 10, (3, 4, 5, 6)⟩]
    ⟨"cat", mkRat 7 10, (3, 4, 5, 6)⟩ (by decide)⟩

/-- C10: `detect_and_crop` never returns a partially-null triple: either all
three components are `none` (and the main script's truthiness test on the
label is false), or the label is exactly "dog" or "cat" — a non-empty,
truthy string — and the crop and box are both non-`none`.  Hence the `if
pet_type:` test alone correctly discriminates the two cases. -/
theorem detect_and_crop_all_or_none (image_path : String)
    (dets : List Detection) :
    (detect_and_crop image_path dets = (none, none, none) ∧
      pyTruthy (detect_and_crop image_path dets).1 = false) ∨
    (∃ l c b, detect_and_crop image_path dets = (some l, some c, some b) ∧
      (l = "dog" ∨ l = "cat") ∧ pyTruthy (some l) = true) := by
  induction dets with
  | nil => left; exact ⟨rfl, rfl⟩
  | cons a t ih =>
    by_cases ha : isPet a.label = true
    · right
      have hlab : a.label = "dog" ∨ a.label = "cat" := by
        have := ha
        simp only [isPet, Bool.or_eq_true, beq_iff_eq] at this
        exact this
      refine ⟨a.label, imageCrop image_path a.box, a.box, ?_, hlab, ?_⟩
      · simp [detect_and_crop, ha]
      · rcases hlab with h | h <;> rw [h] <;> rfl
    · rw [Bool.not_eq_true] at ha
      have hstep : detect_and_crop image_path (a :: t) =
          detect_and_crop image_path t := by
        simp [detect_and_crop, ha]
      rw [hstep]
      exact ih

/-! ### Helper lemmas about `npArgmax` and `softmax` -/

/-- `isMaxOf` decides the upper-bound property. -/
theorem isMaxOf_iff {α : Type} [LinearOrder α] (l : List α) (x : α) :
    isMaxOf l x = true ↔ ∀ y ∈ l, y ≤ x := by
  simp [isMaxOf]

/-- Every non-empty list in a linear order has a greatest element. -/
theorem list_exists_max {α : Type} [LinearOrder α] :
    ∀ l : List α, l ≠ [] → ∃ x ∈ l, ∀ y ∈ l, y ≤ x := by
  intro l
  induction l with
  | nil => intro h; exact absurd rfl h
  | cons a t ih =>
    intro _
    rcases eq_or_ne t [] with ht | ht
    · subst ht
      refine ⟨a, by simp, ?_⟩
      intro y hy
      rw [List.mem_singleton] at hy
      exact le_of_eq hy
    · obtain ⟨x, hx, hmax⟩ := ih ht
      rcases le_total x a with hc | hc
      · refine ⟨a, by simp, ?_⟩
        intro y hy
        rcases List.mem_cons.mp hy with rfl | hy
        · exact le_rfl
        · exact le_trans (hmax y hy) hc
      · refine ⟨x, List.mem_cons_of_mem a hx, ?_⟩
        intro y hy
        rcases List.mem_cons.mp hy with rfl | hy
        · exact hc
        · exact hmax y hy

/-- On a non-empty list the argmax index is in bounds. -/
theorem npArgmax_lt_length {α : Type} [LinearOrder α] (l : List α)
    (h : l ≠ []) : npArgmax l < l.length := by
  obtain ⟨x, hx, hmax⟩ := list_exists_max l h
  exact List.findIdx_lt_length_of_exists ⟨x, hx, (isMaxOf_iff l x).mpr hmax⟩

/-- The entry at the argmax index is an upper bound of the list. -/
theorem npArgmax_is_max {α : Type} [LinearOrder α] (l : List α)
    (h : npArgmax l < l.length) : ∀ y ∈ l, y ≤ l[npArgmax l] := by
  have hp : isMaxOf l l[npArgmax l] = true :=
    @List.findIdx_getElem _ (fun x => isMaxOf l x) l h
  exact (isMaxOf_iff l _).mp hp

/-- `npArgmax` returns the first index attaining the maximum: any index that
attains the maximum and strictly dominates everything before it is the
argmax index. -/
theorem npArgmax_eq_of_first_max {α : Type} [LinearOrder α] [Zero α]
    (l : List α) (i : Nat) (hi : i < l.length)
    (hmax : ∀ j, j < l.length → l.getD j 0 ≤ l.getD i 0)
    (hfirst : ∀ j, j < i → l.getD j 0 < l.getD i 0) :
    npArgmax l = i := by
  have hne : l ≠ [] := by
    intro he
    rw [he] at hi
    simp at hi
  have hlt : npArgmax l < l.length := npArgmax_lt_length l hne
  have hmaxi : isMaxOf l (l.getD i 0) = true := by
    rw [isMaxOf_iff]
    intro y hy
    obtain ⟨j, hj, rfl⟩ := List.mem_iff_getElem.mp hy
    rw [← List.getD_eq_getElem l 0 hj]
    exact hmax j hj
  have hle : npArgmax l ≤ i := by
    by_contra hgt
    push_neg at hgt
    have hfa : (fun x => isMaxOf l x) l[i] = false :=
      List.not_of_lt_findIdx hgt
    simp only [] at hfa
    rw [List.getD_eq_getElem l 0 hi] at hmaxi
    rw [hmaxi] at hfa
    exact absurd hfa (by decide)
  rcases lt_or_eq_of_le hle with hlt2 | heq
  · exfalso
    have hstrict : l.getD (npArgmax l) 0 < l.getD i 0 := hfirst _ hlt2
    have hub : l.getD i 0 ≤ l.getD (npArgmax l) 0 := by
      rw [List.getD_eq_getElem l 0 hlt, List.getD_eq_getElem l 0 hi]
      exact npArgmax_is_max l hlt _ (List.getElem_mem hi)
    exact absurd hstrict (not_lt_of_le hub)
  · exact heq

/-- `softmax` preserves the number of entries. -/
theorem softmax_length (logits : List ℝ) :
    (softmax logits).length = logits.length := by
  simp [softmax]

/-- Summing a list after dividing each mapped value by a constant equals the
mapped sum divided by that constant. -/
theorem sum_map_div (l : List ℝ) (f : ℝ → ℝ) (c : ℝ) :
    (l.map (fun x => f x / c)).sum = (l.map f).sum / c := by
  induction l with
  | nil => simp
  | cons a t ih => simp [ih, add_div]

/-- The denominator of `softmax` is positive on a non-empty list. -/
theorem softmax_denom_pos (logits : List ℝ) (h : logits ≠ []) :
    0 < (logits.map Real.exp).sum := by
  apply List.sum_pos
  · intro x hx
    obtain ⟨y, _, rfl⟩ := List.mem_map.mp hx
    exact Real.exp_pos y
  · simpa using h

/-- On a non-empty list, the softmax entries sum to exactly 1. -/
theorem softmax_sum (logits : List ℝ) (h : logits ≠ []) :
    (softmax logits).sum = 1 := by
  have hpos := softmax_denom_pos logits h
  rw [softmax, sum_map_div]
  exact div_self (ne_of_gt hpos)

/-- Every softmax entry lies in `[0, 1]`. -/
theorem softmax_mem_bounds (logits : List ℝ) (h : logits ≠ []) :
    ∀ p ∈ softmax logits, 0 ≤ p ∧ p ≤ 1 := by
  intro p hp
  have hpos := softmax_denom_pos logits h
  obtain ⟨x, hx, rfl⟩ := List.mem_map.mp hp
  constructor
  · exact div_nonneg (le_of_lt (Real.exp_pos x)) (le_of_lt hpos)
  · rw [div_le_one hpos]
    refine List.single_le_sum ?_ _ (List.mem_map_of_mem Real.exp hx)
    intro y hy
    obtain ⟨z, _, rfl⟩ := List.mem_map.mp hy
    exact le_of_lt (Real.exp_pos z)

/-! ### Claims about `classify_mood` -/

/-- C5: `classify_mood` scores exactly the four candidate phrases
`"a {mood} pet"` for the moods happy, tired, playful, anxious, and returns
the argmax mood of the classifier's softmax distribution together with that
mood's probability; the returned mood is always one of the four fixed
moods. -/
theorem classify_mood_spec (logits : List ℝ) (h : logits.length = 4) :
    candidate_texts =
      ["a happy pet", "a tired pet", "a playful pet", "a anxious pet"] ∧
    ∃ i, i < 4 ∧
      (∀ j, j < 4 → (softmax logits).getD j 0 ≤ (softmax logits).getD i 0) ∧
      classify_mood logits = (moods.getD i "", (softmax logits).getD i 0) ∧
      (classify_mood logits).1 ∈ moods := by
  have hlen : (softmax logits).length = 4 := by rw [softmax_length, h]
  have hsne : softmax logits ≠ [] := by
    intro he
    rw [he] at hlen
    simp at hlen
  have hlt : npArgmax (softmax logits) < (softmax logits).length :=
    npArgmax_lt_length _ hsne
  have hi4 : npArgmax (softmax logits) < 4 := by rw [← hlen]; exact hlt
  refine ⟨rfl, npArgmax (softmax logits), hi4, ?_, rfl, ?_⟩
  · intro j hj
    have hjl : j < (softmax logits).length := by rw [hlen]; exact hj
    rw [List.getD_eq_getElem _ 0 hjl, List.getD_eq_getElem _ 0 hlt]
    exact npArgmax_is_max _ hlt _ (List.getElem_mem hjl)
  · have hm : npArgmax (softmax logits) < moods.length := hi4
    show moods.getD (npArgmax (softmax logits)) "" ∈ moods
    rw [List.getD_eq_getElem moods "" hm]
    exact List.getElem_mem hm

/-- Witness for C5 at the uniform logits `[0, 0, 0, 0]`. -/
theorem classify_mood_spec_witness :
    (([0, 0, 0, 0] : List ℝ).length = 4) ∧
    (candidate_texts =
      ["a happy pet", "a tired pet", "a playful pet", "a anxious pet"] ∧
    ∃ i, i < 4 ∧
      (∀ j, j < 4 →
        (softmax [0, 0, 0, 0]).getD j 0 ≤ (softmax [0, 0, 0, 0]).getD i 0) ∧
      classify_mood [0, 0, 0, 0] =
        (moods.getD i "", (softmax [0, 0, 0, 0]).getD i 0) ∧
      (classify_mood [0, 0, 0, 0]).1 ∈ moods) :=
  ⟨rfl, classify_mood_spec [0, 0, 0, 0] rfl⟩

/-- C6: for every invocation of `classify_mood` (four candidate phrases),
the softmax distribution over the phrases sums to exactly 1 and the returned
confidence lies in `[0, 1]`. -/
theorem classify_mood_normalized (logits : List ℝ) (h : logits.length = 4) :
    (softmax logits).sum = 1 ∧
    0 ≤ (classify_mood logits).2 ∧ (classify_mood logits).2 ≤ 1 := by
  have hne : logits ≠ [] := by
    intro he
    rw [he] at h
    simp at h
  have hlen : (softmax logits).length = 4 := by rw [softmax_length, h]
  have hsne : softmax logits ≠ [] := by
    intro he
    rw [he] at hlen
    simp at hlen
  have hlt : npArgmax (softmax logits) < (softmax logits).length :=
    npArgmax_lt_length _ hsne
  have hmem : (softmax logits).getD (npArgmax (softmax logits)) 0 ∈
      softmax logits := by
    rw [List.getD_eq_getElem _ 0 hlt]
    exact List.getElem_mem hlt
  have hb := softmax_mem_bounds logits hne _ hmem
  exact ⟨softmax_sum logits hne, hb.1, hb.2⟩

/-- Witness for C6 at the uniform logits `[0, 0, 0, 0]`. -/
theorem classify_mood_normalized_witness :
    (([0, 0, 0, 0] : List ℝ).length = 4) ∧
    ((softmax [0, 0, 0, 0]).sum = 1 ∧
      0 ≤ (classify_mood [0, 0, 0, 0]).2 ∧ (classify_mood [0, 0, 0, 0]).2 ≤ 1) :=
  ⟨rfl, classify_mood_normalized [0, 0, 0, 0] rfl⟩

/-- C7: when several of the four mood probabilities are equal to the maximum,
the classification selects the mood with the smallest index in
`[happy, tired, playful, anxious]` (first-max tie-breaking): if index `i`
attains the maximum and strictly dominates every earlier index, the result
is `moods[i]` with probability `probs[i]`. -/
theorem classify_mood_first_max (probs : List ℚ) (i : Nat)
    (h4 : probs.length = 4) (hi : i < 4)
    (hmax : ∀ j, j < 4 → probs.getD j 0 ≤ probs.getD i 0)
    (hfirst : ∀ j, j < i → probs.getD j 0 < probs.getD i 0) :
    classify_mood_from_probs probs = (moods.getD i "", probs.getD i 0) := by
  have hargmax : npArgmax probs = i := by
    apply npArgmax_eq_of_first_max probs i
    · rw [h4]; exact hi
    · intro j hj
      exact hmax j (by rw [← h4]; exact hj)
    · exact hfirst
  simp only [classify_mood_from_probs, hargmax]

/-- Witness for C7 at a distribution with a genuine tie between indices 1
and 2: the smaller index (mood "tired") is selected. -/
theorem classify_mood_first_max_witness :
    (([mkRat 1 10, mkRat 4 10, mkRat 4 10, mkRat 1 10] : List ℚ).length = 4) ∧
    (1 < 4) ∧
    (∀ j, j < 4 →
      ([mkRat 1 10, mkRat 4 10, mkRat 4 10, mkRat 1 10] : List ℚ).getD j 0 ≤
        ([mkRat 1 10, mkRat 4 10, mkRat 4 10, mkRat 1 10] : List ℚ).getD 1 0) ∧
    (∀ j, j < 1 →
      ([mkRat 1 10, mkRat 4 10, mkRat 4 10, mkRat 1 10] : List ℚ).getD j 0 <
        ([mkRat 1 10, mkRat 4 10, mkRat 4 10, mkRat 1 10] : List ℚ).getD 1 0) ∧
    classify_mood_from_probs
        ([mkRat 1 10, mkRat 4 10, mkRat 4 10, mkRat 1 10] : List ℚ) =
      (moods.getD 1 "", ([mkRat 1 10, mkRat 4 10, mkRat 4 10, mkRat 1 10] :
        List ℚ).getD 1 0) :=
  ⟨by decide, by decide, by decide, by decide,
    classify_mood_first_max [mkRat 1 10, mkRat 4 10, mkRat 4 10, mkRat 1 10]
      1 (by decide) (by decide) (by decide) (by decide)⟩

/-! ### Claims about `get_recommendation` and the main script -/

/-- Looking a key up in an association list in which it does not occur
yields `none`. -/
theorem lookup_eq_none_aux {β : Type} (k : String × String) :
    ∀ l : List ((String × String) × β), k ∉ l.map Prod.fst →
      l.lookup k = none := by
  intro l
  induction l with
  | nil => intro _; rfl
  | cons a t ih =>
    intro h
    obtain ⟨q, v⟩ := a
    simp only [List.map_cons, List.mem_cons] at h
    push_neg at h
    rw [List.lookup_cons]
    have hb : (k == q) = false := beq_eq_false_iff_ne.mpr h.1
    simp only [hb]
    exact ih h.2

/-- C8: `get_recommendation` is a pure total function: on each of the 8
pairs in `{dog, cat} × {happy, tired, playful, anxious}` it returns the
corresponding non-empty string of the static table, and on every pair
outside that domain it returns the default "Keep monitoring your pet.". -/
theorem get_recommendation_total (pt m : String)
    (h : (pt, m) ∉ rules.map Prod.fst) :
    (∀ e ∈ rules, get_recommendation e.1.1 e.1.2 = e.2 ∧ e.2 ≠ "") ∧
    get_recommendation pt m = "Keep monitoring your pet." := by
  refine ⟨by decide, ?_⟩
  unfold get_recommendation
  rw [lookup_eq_none_aux (pt, m) rules h]
  rfl

/-- Witness for C8 at the out-of-domain pair `("fish", "happy")`. -/
theorem get_recommendation_total_witness :
    (("fish", "happy") ∉ rules.map Prod.fst) ∧
    ((∀ e ∈ rules, get_recommendation e.1.1 e.1.2 = e.2 ∧ e.2 ≠ "") ∧
      get_recommendation "fish" "happy" = "Keep monitoring your pet.") :=
  ⟨by decide, get_recommendation_total "fish" "happy" (by decide)⟩

/-- C2: for any image whose detections contain zero boxes, or only boxes
labelled outside {"dog", "cat"}, the main script prints exactly
"No pet detected in the image." and performs no mood-classification call
and no rendering call. -/
theorem pipeline_no_pet (image_path : String) (dets : List Detection)
    (clipProbs : Img → List ℚ)
    (h : ∀ d ∈ dets, isPet d.label = false) :
    runPipeline image_path dets clipProbs =
      { events := [PrintEvent.message "No pet detected in the image."],
        classifyCalls := 0, renderCalls := 0 } := by
  unfold runPipeline
  rw [detect_none_aux image_path dets h]
  rfl

/-- Witness for C2: a run whose only detection is a "car". -/
theorem pipeline_no_pet_witness :
    (∀ d ∈ ([⟨"car", mkRat 9 10, (0, 0, 5, 5)⟩] : List Detection),
        isPet d.label = false) ∧
    runPipeline "street.jpg" [⟨"car", mkRat 9 10, (0, 0, 5, 5)⟩]
        (fun _ => []) =
      { events := [PrintEvent.message "No pet detected in the image."],
        classifyCalls := 0, renderCalls := 0 } :=
  ⟨by decide, pipeline_no_pet "street.jpg" [⟨"car", mkRat 9 10, (0, 0, 5, 5)⟩]
    (fun _ => []) (by decide)⟩

/-- C9: with the single detection `{label: "dog", box: (10,10,100,100),
conf: 0.9}` and the classifier distribution `[0.1, 0.6, 0.2, 0.1]` over
`[happy, tired, playful, anxious]`, the pipeline reports pet "dog", mood
"tired" with confidence `0.6`, and the recommendation "Let your dog rest
and provide fresh water 💧", making one classification call and one
rendering call. -/
theorem pipeline_scenario :
    runPipeline "dog_sample.jpg" [⟨"dog", mkRat 9 10, (10, 10, 100, 100)⟩]
        (fun _ => [mkRat 1 10, mkRat 6 10, mkRat 2 10, mkRat 1 10]) =
      { events := [PrintEvent.petDetected "dog",
                   PrintEvent.moodLine "tired" (mkRat 6 10),
                   PrintEvent.recLine
                     "Let your dog rest and provide fresh water 💧"],
        classifyCalls := 1, renderCalls := 1 } := by
  decide
